import Mathlib

/-!
Verification of the risk-gate and smart-order core.

A shallow embedding of the risk / smart-order core of the trading bot:

* `confirm_trade_entry` / `confirm_trade_entry_stoic` — the pre-trade hooks of
  `src/strategies/risk_mixin.py` and `strategies/StoicRiskMixin.py`,
  translated from the source, with the external collaborators
  (circuit breaker answer, risk-manager evaluation, EMA guard) abstracted
  into a `RiskEnv` record of their boolean outcomes, and the sequence of
  checks that actually ran recorded in an execution trace.
* A `CircuitBreaker` state machine.  `src/risk/circuit_breaker.py` is not
  part of the source tree (only its callers `risk_mixin.py` and
  `scripts/risk/chaos_test.py` are), so `record_trade` and its trip
  evaluation are modelled from the spec.
* `ChaseLimitOrder` price chasing.  `src/order_manager/smart_order.py` is
  not in the source tree either; the pure price-update function is
  modelled from the spec (section 4.4).
* `SmartOrderExecutor` — translated operation by operation from
  `src/order_manager/smart_order_executor.py`.  The asyncio run-time is
  embedded as explicit state: the two dictionaries become association
  lists, `asyncio.Task` objects become `TaskCtl` records carrying the
  Python cancellation semantics (`Task.cancel()` only *requests*
  cancellation; the task finishes on its next scheduling), and one
  scheduling of the `_manage_order` coroutine becomes `taskStep`.
  Every locked section of the source contains no inner `await`, so each
  public method body is one atomic step of the model.
-/

/-! ## Association lists (Python `dict` with insertion order) -/

section AList

variable {α β : Type} [DecidableEq α]

/-- Lookup in an association list, first match wins (Python `d[k]` / `k in d`). -/
def alookup (k : α) : List (α × β) → Option β
  | [] => none
  | (k', v) :: l => if k' = k then some v else alookup k l

/-- Insert-or-overwrite (Python `d[k] = v`): replaces the first binding of `k`
in place, else appends. -/
def ainsert (k : α) (v : β) : List (α × β) → List (α × β)
  | [] => [(k, v)]
  | (k', v') :: l => if k' = k then (k, v) :: l else (k', v') :: ainsert k v l

/-- Delete a key (Python `del d[k]`, tolerant of a missing key). -/
def aerase (k : α) : List (α × β) → List (α × β)
  | [] => []
  | (k', v') :: l => if k' = k then l else (k', v') :: aerase k l

/-- The keys of an association list are pairwise distinct (every state the
executor reaches satisfies this: it is the `dict` representation invariant). -/
def NodupKeys (l : List (α × β)) : Prop := (l.map Prod.fst).Nodup

theorem alookup_ainsert_self (k : α) (v : β) (l : List (α × β)) :
    alookup k (ainsert k v l) = some v := by
  induction l with
  | nil => simp [ainsert, alookup]
  | cons hd tl ih =>
    by_cases h : hd.1 = k
    · simp [ainsert, alookup, h]
    · simp [ainsert, alookup, h, ih]

theorem alookup_ainsert_ne (k k' : α) (v : β) (l : List (α × β)) (h : k' ≠ k) :
    alookup k' (ainsert k v l) = alookup k' l := by
  induction l with
  | nil => simp [ainsert, alookup, h, Ne.symm h]
  | cons hd tl ih =>
    by_cases hh : hd.1 = k
    · simp [ainsert, alookup, hh, h, Ne.symm h]
    · by_cases hk : hd.1 = k'
      · simp [ainsert, alookup, hh, hk, h, Ne.symm h]
      · simp [ainsert, alookup, hh, hk, ih]

theorem alookup_aerase_self (k : α) (l : List (α × β)) (h : NodupKeys l) :
    alookup k (aerase k l) = none := by
  induction l with
  | nil => simp [aerase, alookup]
  | cons hd tl ih =>
    simp only [NodupKeys, List.map_cons, List.nodup_cons] at h
    by_cases hh : hd.1 = k
    · cases hkey : alookup k tl with
      | none => simp [aerase, hh, hkey]
      | some v =>
        exfalso
        apply h.1
        subst hh
        clear ih h
        induction tl with
        | nil => simp [alookup] at hkey
        | cons hd' tl' ih' =>
          by_cases h2 : hd'.1 = hd.1
          · simp [h2]
          · simp only [alookup, h2, if_false] at hkey
            simp [ih' hkey]
    · simp [aerase, alookup, hh, ih h.2]

theorem alookup_aerase_ne (k k' : α) (l : List (α × β)) (h : k' ≠ k) :
    alookup k' (aerase k l) = alookup k' l := by
  induction l with
  | nil => simp [aerase]
  | cons hd tl ih =>
    by_cases hh : hd.1 = k
    · subst hh
      simp [aerase, alookup, h, Ne.symm h]
    · by_cases hk : hd.1 = k'
      · simp [aerase, alookup, hh, hk, h, Ne.symm h]
      · simp [aerase, alookup, hh, hk, ih]

omit [DecidableEq α] in
theorem nodupKeys_nil : NodupKeys ([] : List (α × β)) := by
  simp [NodupKeys]

theorem mem_keys_ainsert (k k' : α) (v : β) (l : List (α × β)) :
    k' ∈ (ainsert k v l).map Prod.fst → k' = k ∨ k' ∈ l.map Prod.fst := by
  induction l with
  | nil => simp [ainsert]
  | cons hd tl ih =>
    by_cases hh : hd.1 = k
    · simp only [ainsert, hh, if_true, List.map_cons, List.mem_cons]
      rintro (h | h)
      · exact Or.inl h
      · exact Or.inr (Or.inr h)
    · simp only [ainsert, hh, if_false, List.map_cons, List.mem_cons]
      rintro (h | h)
      · exact Or.inr (Or.inl h)
      · rcases ih h with h' | h'
        · exact Or.inl h'
        · exact Or.inr (Or.inr h')

theorem nodupKeys_ainsert (k : α) (v : β) (l : List (α × β)) (h : NodupKeys l) :
    NodupKeys (ainsert k v l) := by
  induction l with
  | nil => simp [NodupKeys, ainsert]
  | cons hd tl ih =>
    simp only [NodupKeys, List.map_cons, List.nodup_cons] at h
    by_cases hh : hd.1 = k
    · subst hh
      simp only [NodupKeys, ainsert, if_true, List.map_cons, List.nodup_cons]
      exact ⟨h.1, h.2⟩
    · simp only [NodupKeys, ainsert, hh, if_false, List.map_cons, List.nodup_cons]
      constructor
      · intro hmem
        rcases mem_keys_ainsert k hd.1 v tl hmem with h' | h'
        · exact hh h'
        · exact h.1 h'
      · exact ih h.2

theorem nodupKeys_aerase (k : α) (l : List (α × β)) (h : NodupKeys l) :
    NodupKeys (aerase k l) := by
  induction l with
  | nil => simp [NodupKeys, aerase]
  | cons hd tl ih =>
    simp only [NodupKeys, List.map_cons, List.nodup_cons] at h
    by_cases hh : hd.1 = k
    · simpa [NodupKeys, aerase, hh] using h.2
    · simp only [NodupKeys, aerase, hh, if_false, List.map_cons, List.nodup_cons]
      refine ⟨fun hmem => h.1 ?_, ih h.2⟩
      clear ih h
      induction tl with
      | nil => simp [aerase] at hmem
      | cons hd' tl' ih' =>
        by_cases h2 : hd'.1 = k
        · simp only [aerase, h2, if_true] at hmem
          simp [hmem]
        · simp only [aerase, h2, if_false, List.map_cons, List.mem_cons] at hmem
          rcases hmem with h3 | h3
          · simp [h3]
          · simp [ih' h3]

end AList

/-! ## Circuit breaker (spec-modelled)

Modelled from the spec: `src/risk/circuit_breaker.py` is not part of the
source tree; only its callers (`risk_mixin.py`, `scripts/risk/chaos_test.py`)
are.  The data model follows spec section 3, `record_trade` follows spec
section 4.1 / 4.4 ("while CLOSED, updates current_balance / peak_balance,
increments or resets consecutive_losses based on sign of profit_pct, and
re-evaluates trip conditions after the update").  The balance update applies
`profit_pct` to the recorded trade's amount (the chaos test passes a trade
`{pair, amount}` together with `profit_pct`); trip conditions are re-checked
in the spec's listing order (a) daily loss, (b) drawdown, (c) consecutive
losses.  Thresholds are stated multiplicatively (`loss ≥ pct * base`) to
avoid division. -/

inductive CircuitState
  | CLOSED
  | OPEN
  | HALF_OPEN
  deriving DecidableEq, Repr

inductive TripReason
  | NONE
  | DAILY_LOSS
  | MAX_DRAWDOWN
  | CONSECUTIVE_LOSSES
  | API_ERRORS
  | MANUAL
  deriving DecidableEq, Repr

structure CBConfig where
  daily_loss_limit_pct : ℚ
  max_drawdown_pct : ℚ
  consecutive_loss_limit : ℕ
  max_api_errors : ℕ
  api_error_window_minutes : ℚ
  cooldown_minutes : ℚ
  auto_reset_after_hours : ℚ
  recovery_trades_required : ℕ
  deriving DecidableEq, Repr

structure CBState where
  state : CircuitState
  trip_reason : TripReason
  trip_time : ℚ
  starting_balance : ℚ
  current_balance : ℚ
  peak_balance : ℚ
  consecutive_losses : ℕ
  api_error_timestamps : List ℚ
  recovery_successes : ℕ
  deriving DecidableEq, Repr

/-- Modelled from the spec: `initialize_session(initial_balance)` creates a
fresh CLOSED session with all balances equal to the initial balance and all
counters cleared. -/
def initSession (b : ℚ) : CBState :=
  { state := CircuitState.CLOSED
    trip_reason := TripReason.NONE
    trip_time := 0
    starting_balance := b
    current_balance := b
    peak_balance := b
    consecutive_losses := 0
    api_error_timestamps := []
    recovery_successes := 0 }

/-- Trip condition (a): daily loss from `starting_balance` has reached
`daily_loss_limit_pct` of it. -/
def dailyLossHit (cfg : CBConfig) (st : CBState) : Bool :=
  decide (cfg.daily_loss_limit_pct * st.starting_balance ≤
    st.starting_balance - st.current_balance)

/-- Trip condition (b): drawdown from `peak_balance` has reached
`max_drawdown_pct` of it. -/
def drawdownHit (cfg : CBConfig) (st : CBState) : Bool :=
  decide (cfg.max_drawdown_pct * st.peak_balance ≤
    st.peak_balance - st.current_balance)

/-- Trip condition (c): the consecutive-loss counter has reached the limit. -/
def consecutiveHit (cfg : CBConfig) (st : CBState) : Bool :=
  decide (cfg.consecutive_loss_limit ≤ st.consecutive_losses)

/-- CLOSED → OPEN transition: set the trip reason and the trip time. -/
def tripBreaker (now : ℚ) (st : CBState) (r : TripReason) : CBState :=
  { st with state := CircuitState.OPEN, trip_reason := r, trip_time := now }

/-- A trade outcome as the chaos test passes it: a pair and an amount. -/
structure TradeRec where
  pair : String
  amount : ℚ
  deriving DecidableEq, Repr

/-- The pure update part of `record_trade`: apply the profit to the balance,
track the peak, and increment or reset the consecutive-loss counter based on
the sign of `profit_pct` (spec section 4.1). -/
def applyTradeUpdate (st : CBState) (tr : TradeRec) (profit_pct : ℚ) : CBState :=
  let profit := tr.amount * profit_pct
  let bal := st.current_balance + profit
  { st with
    current_balance := bal
    peak_balance := max st.peak_balance bal
    consecutive_losses :=
      if profit_pct < 0 then st.consecutive_losses + 1
      else if 0 < profit_pct then 0
      else st.consecutive_losses }

/-- Re-evaluate the trip conditions on a CLOSED breaker, in the spec's
listing order: daily loss, drawdown, consecutive losses. -/
def evalTrips (cfg : CBConfig) (now : ℚ) (st : CBState) : CBState :=
  if dailyLossHit cfg st then tripBreaker now st TripReason.DAILY_LOSS
  else if drawdownHit cfg st then tripBreaker now st TripReason.MAX_DRAWDOWN
  else if consecutiveHit cfg st then tripBreaker now st TripReason.CONSECUTIVE_LOSSES
  else st

/-- Modelled from the spec: `record_trade(trade, profit_pct)` — while CLOSED,
update the balances and the consecutive-loss counter, then re-evaluate the
trip conditions (may trip immediately); in any other state it is a no-op on
this state machine. -/
def record_trade (cfg : CBConfig) (st : CBState) (tr : TradeRec)
    (profit_pct : ℚ) (now : ℚ) : CBState :=
  if st.state = CircuitState.CLOSED then
    evalTrips cfg now (applyTradeUpdate st tr profit_pct)
  else st

/-! ## Pre-trade hook `confirm_trade_entry` (from the source)

Translated from `src/strategies/risk_mixin.py` (`StoicRiskMixin.
confirm_trade_entry`) and from the older `strategies/StoicRiskMixin.py`
variant.  The external collaborators are abstracted into a `RiskEnv`
record of their answers for the one evaluated call:

* `canTrade`     — the value of `risk_manager.circuit_breaker.can_trade()`;
* `evalAllowed`  — the value of `evaluate_trade(...)["allowed"]`;
* `emaBlocked`   — whether the EMA-deviation guard fires, i.e. a last candle
  exists, has a truthy `ema_200`, and `rate < ema_200 * 0.7`
  (only present in `risk_mixin.py`).

When the strategy's `risk_manager` is `None` the hook never reaches any of
these, which the embedding renders as the `Option.none` case.  Each
function also returns the trace of steps it executed, in order, so that
ordering and short-circuit claims are facts about the definition. -/

inductive RiskCheck
  | syncState
  | circuitBreaker
  | evaluateTrade
  | emaDeviation
  deriving DecidableEq, Repr

structure RiskEnv where
  canTrade : Bool
  evalAllowed : Bool
  emaBlocked : Bool
  deriving DecidableEq, Repr

/-- `StoicRiskMixin.confirm_trade_entry` of `src/strategies/risk_mixin.py`:
if the risk manager is missing, log and return `True`; otherwise sync state,
check the circuit breaker (early `False`), call `evaluate_trade`, apply the
EMA-deviation guard (early `False`), then check `evaluation["allowed"]`. -/
def confirm_trade_entry (rm : Option RiskEnv) : Bool × List RiskCheck :=
  match rm with
  | none => (true, [])
  | some env =>
    if env.canTrade = false then
      (false, [RiskCheck.syncState, RiskCheck.circuitBreaker])
    else if env.emaBlocked then
      (false, [RiskCheck.syncState, RiskCheck.circuitBreaker,
               RiskCheck.evaluateTrade, RiskCheck.emaDeviation])
    else if env.evalAllowed = false then
      (false, [RiskCheck.syncState, RiskCheck.circuitBreaker,
               RiskCheck.evaluateTrade, RiskCheck.emaDeviation])
    else
      (true, [RiskCheck.syncState, RiskCheck.circuitBreaker,
              RiskCheck.evaluateTrade, RiskCheck.emaDeviation])

/-- `StoicRiskMixin.confirm_trade_entry` of `strategies/StoicRiskMixin.py`:
same shape, without the EMA-deviation guard. -/
def confirm_trade_entry_stoic (rm : Option RiskEnv) : Bool × List RiskCheck :=
  match rm with
  | none => (true, [])
  | some env =>
    if env.canTrade = false then
      (false, [RiskCheck.syncState, RiskCheck.circuitBreaker])
    else if env.evalAllowed = false then
      (false, [RiskCheck.syncState, RiskCheck.circuitBreaker,
               RiskCheck.evaluateTrade])
    else
      (true, [RiskCheck.syncState, RiskCheck.circuitBreaker,
              RiskCheck.evaluateTrade])

/-! ## Smart orders (data and price logic, spec-modelled)

Modelled from the spec: `src/order_manager/order_types.py` and
`src/order_manager/smart_order.py` are not part of the source tree; only
their consumers (`smart_order_executor.py`, `examples/mft_hybrid_demo.py`)
are.  `OrderStatus` and the `SmartOrder` / `ChaseLimitOrder` fields follow
spec section 3; `is_active`, the timeout predicate and `update_status`
follow sections 3-4; the chase price update follows section 4.4. -/

inductive OrderStatus
  | PENDING
  | SUBMITTED
  | ACTIVE
  | FILLED
  | CANCELLED
  | FAILED
  | EXPIRED
  deriving DecidableEq, Repr

inductive OrderSide
  | BUY
  | SELL
  deriving DecidableEq, Repr

structure SmartOrder where
  order_id : String
  symbol : String
  side : OrderSide
  quantity : ℚ
  price : ℚ
  max_chase_price : ℚ
  chase_offset : ℚ
  status : OrderStatus
  error : Option String
  deriving DecidableEq, Repr

/-- Modelled from the spec: the lifecycle loop runs "while status is
ACTIVE/SUBMITTED", so an order is active exactly in those two statuses. -/
def SmartOrder.is_active (o : SmartOrder) : Bool :=
  o.status = OrderStatus.SUBMITTED || o.status = OrderStatus.ACTIVE

/-- Modelled from the spec: `update_status(status, error)` sets the status
and records the error when one is supplied. -/
def SmartOrder.update_status (o : SmartOrder) (st : OrderStatus)
    (err : Option String) : SmartOrder :=
  { o with status := st, error := err.orElse (fun _ => o.error) }

/-- One BUY chase step (spec section 4.4): candidate `best_bid +
chase_offset`, new price `min (max candidate current) max_chase_price`. -/
def chaseBuyStep (maxChase offset price bid : ℚ) : ℚ :=
  min (max (bid + offset) price) maxChase

/-- The successive working prices of a BUY chase order across a sequence of
best-bid updates (the post-update price after each tick). -/
def chaseTrace (maxChase offset : ℚ) : ℚ → List ℚ → List ℚ
  | _, [] => []
  | p, b :: bs =>
    let p' := chaseBuyStep maxChase offset p b
    p' :: chaseTrace maxChase offset p' bs

/-- The consumed fields of an aggregated ticker (spec section 6: the
executor consumes only symbol, best_bid, best_ask, spread_pct). -/
structure Ticker where
  symbol : String
  best_bid : ℚ
  best_ask : ℚ
  spread_pct : ℚ
  deriving DecidableEq, Repr

/-- Modelled from the spec: `ChaseLimitOrder.on_ticker_update` — BUY chases
the best bid up to the `max_chase_price` ceiling, SELL symmetrically chases
the best ask down to the `max_chase_price` floor. -/
def SmartOrder.on_ticker_update (o : SmartOrder) (tk : Ticker) : SmartOrder :=
  match o.side with
  | OrderSide.BUY =>
    { o with price := chaseBuyStep o.max_chase_price o.chase_offset o.price tk.best_bid }
  | OrderSide.SELL =>
    { o with price := max (min (tk.best_ask - o.chase_offset) o.price) o.max_chase_price }

/-! ## Smart order executor (from the source)

Translated from `src/order_manager/smart_order_executor.py`.  The embedding
makes the asyncio run-time explicit:

* Order objects live in a store (`ref ↦ SmartOrder`); the dictionaries
  `_active_orders` / `_order_tasks` map an `order_id` to the ref / task id.
  This keeps Python's aliasing: a lifecycle task holds its order and task
  identity even after the dictionary entries are deleted or overwritten.
* An `asyncio.Task` is a `TaskCtl`: `Task.cancel()` only sets
  `cancel_requested`; the task actually finishes (`done := true`) at its
  next scheduling, which is one `taskStep`.
* Every `async with self._lock` section in the source contains no inner
  `await`, so under the single-threaded cooperative scheduler each such
  section — and hence each public method — is one atomic step.
* One scheduling of `_manage_order` is `taskStep s tid timedOut fault`:
  `timedOut` is the oracle value of `order.check_timeout()` (wall clock is
  external) and `fault` injects an arbitrary non-cancellation exception
  into the body (`None` = no exception at this iteration). -/

structure TaskCtl where
  tid : ℕ
  orderRef : ℕ
  order_id : String
  cancel_requested : Bool
  done : Bool
  deriving DecidableEq, Repr

structure ExecState where
  store : List (ℕ × SmartOrder)
  active_orders : List (String × ℕ)
  order_tasks : List (String × ℕ)
  tasks : List TaskCtl
  next_ref : ℕ
  next_tid : ℕ
  running : Bool
  deriving DecidableEq, Repr

/-- `SmartOrderExecutor.__init__`: empty maps, no tasks, not running. -/
def initExec : ExecState :=
  { store := []
    active_orders := []
    order_tasks := []
    tasks := []
    next_ref := 0
    next_tid := 0
    running := false }

/-- Apply a function to the order stored at `r`. -/
def updateStore (r : ℕ) (f : SmartOrder → SmartOrder)
    (l : List (ℕ × SmartOrder)) : List (ℕ × SmartOrder) :=
  l.map fun kv => if kv.1 = r then (kv.1, f kv.2) else kv

/-- `Task.cancel()`: request cancellation of the task with this id. -/
def requestCancel (tid : ℕ) (ts : List TaskCtl) : List TaskCtl :=
  ts.map fun t => if t.tid = tid then { t with cancel_requested := true } else t

/-- Find a task by its id. -/
def findTask (tid : ℕ) (ts : List TaskCtl) : Option TaskCtl :=
  ts.find? fun t => t.tid = tid

/-- `start()`: set the running flag (the ticker subscription is external). -/
def startExec (s : ExecState) : ExecState :=
  { s with running := true }

/-- `submit_order(order)`: under the lock — status → SUBMITTED, register
the order, create its lifecycle task, register the task; return the id. -/
def submit_order (s : ExecState) (o : SmartOrder) : ExecState × String :=
  let o' := { o with status := OrderStatus.SUBMITTED }
  let r := s.next_ref
  let tid := s.next_tid
  ({ s with
      store := ainsert r o' s.store
      active_orders := ainsert o.order_id r s.active_orders
      order_tasks := ainsert o.order_id tid s.order_tasks
      tasks := s.tasks ++ [⟨tid, r, o.order_id, false, false⟩]
      next_ref := r + 1
      next_tid := tid + 1 }, o.order_id)

/-- `cancel_order(order_id)`: under the lock — if the id is registered, mark
the order CANCELLED, cancel and deregister its task if one is registered,
and deregister the order; otherwise do nothing. -/
def cancel_order (s : ExecState) (id : String) : ExecState :=
  match alookup id s.active_orders with
  | none => s
  | some r =>
    let store' := updateStore r
      (fun o => o.update_status OrderStatus.CANCELLED none) s.store
    match alookup id s.order_tasks with
    | some tid =>
      { s with
          store := store'
          tasks := requestCancel tid s.tasks
          order_tasks := aerase id s.order_tasks
          active_orders := aerase id s.active_orders }
    | none =>
      { s with
          store := store'
          active_orders := aerase id s.active_orders }

/-- `stop()`: under the lock — cancel every task registered in the task map
and clear both maps.  The tasks are only cancellation-requested, not
awaited. -/
def stopExec (s : ExecState) : ExecState :=
  let tids := s.order_tasks.map Prod.snd
  { s with
      running := false
      tasks := s.tasks.map fun t =>
        if tids.contains t.tid then { t with cancel_requested := true } else t
      order_tasks := []
      active_orders := [] }

/-- `get_order_status(order_id)`: the status of the registered order, else
`None`. -/
def get_order_status (s : ExecState) (id : String) : Option OrderStatus :=
  match alookup id s.active_orders with
  | none => none
  | some r => (alookup r s.store).map SmartOrder.status

/-- The `finally` block of `_manage_order`, under the lock: delete the
task's `order_id` from both maps if present; the task is now finished. -/
def cleanupTask (s : ExecState) (t : TaskCtl) : ExecState :=
  { s with
      active_orders := aerase t.order_id s.active_orders
      order_tasks := aerase t.order_id s.order_tasks
      tasks := s.tasks.map fun u => if u.tid = t.tid then { u with done := true } else u }

/-- One scheduling of `_manage_order` for task `tid`.  A pending
cancellation is delivered first (the `except CancelledError` path: no
status change, cleanup).  Otherwise an injected exception `fault` takes the
`except Exception` path: status → FAILED with the captured error, cleanup.
Otherwise the loop condition and the timeout predicate are evaluated: an
inactive order or a timeout leaves the loop (status unchanged) and runs the
cleanup; else the task sleeps, remaining live. -/
def taskStep (s : ExecState) (tid : ℕ) (timedOut : Bool)
    (fault : Option String) : ExecState :=
  match findTask tid s.tasks with
  | none => s
  | some t =>
    if t.done then s
    else if t.cancel_requested then cleanupTask s t
    else
      match fault with
      | some e =>
        let s' := { s with
          store := updateStore t.orderRef
            (fun o => o.update_status OrderStatus.FAILED (some e)) s.store }
        cleanupTask s' t
      | none =>
        match alookup t.orderRef s.store with
        | none => cleanupTask s t
        | some o =>
          if o.is_active then (if timedOut then cleanupTask s t else s)
          else cleanupTask s t

/-- Whether this scheduling of the task is a termination path: pending
cancellation, an exception, a vanished or inactive order, or a timeout. -/
def stepTerminates (s : ExecState) (t : TaskCtl) (timedOut : Bool)
    (fault : Option String) : Bool :=
  t.cancel_requested || fault.isSome ||
    (match alookup t.orderRef s.store with
     | none => true
     | some o => !o.is_active || timedOut)

/-- A fan-out fault oracle for one order: no exception, an exception raised
by `on_ticker_update` (before the price is written), or an exception raised
by the exchange replace call (after the price is written). -/
inductive Fault
  | ok
  | inUpdate
  | inReplace
  deriving DecidableEq, Repr

/-- The body of the fan-out loop for one snapshotted order: `try` the price
update and the replace call, `except` — log and continue.  Either way the
loop proceeds to the next order; only this order's stored state changes. -/
def processOne (s : ExecState) (tk : Ticker) (faults : ℕ → Fault)
    (r : ℕ) : ExecState :=
  match faults r with
  | Fault.inUpdate => s
  | _ => { s with store := updateStore r (fun o => o.on_ticker_update tk) s.store }

/-- The snapshot taken under the lock: the refs of the registered orders
matching the ticker's symbol that are still active. -/
def tickerSnapshot (s : ExecState) (sym : String) : List ℕ :=
  (s.active_orders.map Prod.snd).filter fun r =>
    match alookup r s.store with
    | some o => o.symbol = sym && o.is_active
    | none => false

/-- `_process_ticker_update(ticker)`: snapshot under the lock, then process
each snapshotted order in turn, faults caught per order. -/
def process_ticker_update (s : ExecState) (tk : Ticker) (faults : ℕ → Fault) :
    ExecState :=
  (tickerSnapshot s tk.symbol).foldl (fun st r => processOne st tk faults r) s

/-- The operations an executor client and the scheduler can interleave. -/
inductive ExecOp
  | submit (o : SmartOrder)
  | cancel (id : String)
  | startOp
  | stopOp
  | step (tid : ℕ) (timedOut : Bool) (fault : Option String)
  | tick (tk : Ticker) (faults : ℕ → Fault)

/-- Apply one operation. -/
def applyOp (s : ExecState) : ExecOp → ExecState
  | ExecOp.submit o => (submit_order s o).1
  | ExecOp.cancel id => cancel_order s id
  | ExecOp.startOp => startExec s
  | ExecOp.stopOp => stopExec s
  | ExecOp.step tid timedOut fault => taskStep s tid timedOut fault
  | ExecOp.tick tk faults => process_ticker_update s tk faults

/-- Run a sequence of operations from a state. -/
def runOps (s : ExecState) (ops : List ExecOp) : ExecState :=
  ops.foldl applyOp s

/-! ## Concrete fixtures

The order and the market steps of `examples/mft_hybrid_demo.py`, and the
configuration and trades of scenario 2 of `scripts/risk/chaos_test.py`. -/

/-- The demo's chase order: BUY BTC/USDT, initial price 49500, hard ceiling
50100 (`examples/mft_hybrid_demo.py`). -/
def demoOrder : SmartOrder :=
  { order_id := "A"
    symbol := "BTC/USDT"
    side := OrderSide.BUY
    quantity := 1/10
    price := 49500
    max_chase_price := 50100
    chase_offset := 0
    status := OrderStatus.PENDING
    error := none }

/-- The demo's four market steps as aggregated tickers. -/
def demoTickers : List Ticker :=
  [ { symbol := "BTC/USDT", best_bid := 49600, best_ask := 49700, spread_pct := 0 },
    { symbol := "BTC/USDT", best_bid := 49800, best_ask := 49850, spread_pct := 0 },
    { symbol := "BTC/USDT", best_bid := 50000, best_ask := 50020, spread_pct := 0 },
    { symbol := "BTC/USDT", best_bid := 50200, best_ask := 50300, spread_pct := 0 } ]

/-- The chaos test's tight configuration (`scripts/risk/chaos_test.py`):
2% daily loss limit, 3 consecutive losses, 5 API errors in 1 minute. -/
def chaosCfg : CBConfig :=
  { daily_loss_limit_pct := 2/100
    max_drawdown_pct := 1/10
    consecutive_loss_limit := 3
    max_api_errors := 5
    api_error_window_minutes := 1
    cooldown_minutes := 1/10
    auto_reset_after_hours := 1/100
    recovery_trades_required := 3 }

/-- The chaos test's flash-crash trade: `{"pair": "BTC/USDT", "amount": 100}`,
recorded with `profit_pct = -0.01`. -/
def chaosTrade : TradeRec := { pair := "BTC/USDT", amount := 100 }

/-- One losing chaos-test trade recorded on the breaker. -/
def chaosLoss (st : CBState) : CBState :=
  record_trade chaosCfg st chaosTrade (-1/100) 0

/-! ## C1 — fail-closed pre-trade decision -/

/-- C1 (counterexample): the claim "whenever the risk machinery is
unavailable or faulted ... the decision returned to the caller is deny,
never allow" is false at the concrete input `risk_manager = None`: both
pre-trade hooks return `True` (allow) when the RiskManager is
uninitialized. -/
theorem claimC1_cex :
    (confirm_trade_entry none).1 = true ∧ (confirm_trade_entry_stoic none).1 = true :=
  ⟨rfl, rfl⟩

/-- C1 (amended): with an initialized RiskManager every faulted or blocking
risk answer — the circuit breaker refusing (`can_trade() = False`, which is
how a breaker-internal fault such as a state-write failure surfaces) or the
risk evaluation disallowing — makes both hooks return deny; but with an
uninitialized RiskManager both hooks return allow (fail open), logging a
warning. -/
theorem claimC1_thm :
    (∀ env : RiskEnv, env.canTrade = false ∨ env.evalAllowed = false →
      (confirm_trade_entry (some env)).1 = false) ∧
    (∀ env : RiskEnv, env.canTrade = false ∨ env.evalAllowed = false →
      (confirm_trade_entry_stoic (some env)).1 = false) ∧
    (confirm_trade_entry none).1 = true ∧
    (confirm_trade_entry_stoic none).1 = true := by
  refine ⟨?_, ?_, rfl, rfl⟩ <;>
    · rintro ⟨ct, ea, eb⟩ h
      cases ct <;> cases ea <;> cases eb <;>
        simp_all [confirm_trade_entry, confirm_trade_entry_stoic]

/-- C1 (witness): the amended theorem at a concrete faulted environment —
breaker refusing, evaluation allowing. -/
theorem claimC1_witness :
    (confirm_trade_entry (some ⟨false, true, false⟩)).1 = false ∧
    (confirm_trade_entry_stoic (some ⟨false, true, false⟩)).1 = false :=
  ⟨claimC1_thm.1 ⟨false, true, false⟩ (Or.inl rfl),
   claimC1_thm.2.1 ⟨false, true, false⟩ (Or.inl rfl)⟩

/-! ## C2 — circuit breaker consulted first, short-circuit on refusal -/

/-- C2: in both pre-trade hooks, whenever risk checks run at all the trace
starts with state sync followed by the circuit-breaker check, so no other
risk check (risk-manager evaluation, EMA guard) ever precedes the breaker;
and when `can_trade()` returns false the hook returns deny immediately with
a trace containing no evaluation and no EMA check — the
liquidation/correlation/sizing work inside `evaluate_trade` never runs.
(The uninitialized-RiskManager path runs no checks at all and is settled by
C1.) -/
theorem claimC2_thm :
    (∀ env : RiskEnv, ∃ rest, (confirm_trade_entry (some env)).2 =
        RiskCheck.syncState :: RiskCheck.circuitBreaker :: rest) ∧
    (∀ env : RiskEnv, ∃ rest, (confirm_trade_entry_stoic (some env)).2 =
        RiskCheck.syncState :: RiskCheck.circuitBreaker :: rest) ∧
    (∀ env : RiskEnv, env.canTrade = false →
        confirm_trade_entry (some env) =
          (false, [RiskCheck.syncState, RiskCheck.circuitBreaker]) ∧
        RiskCheck.evaluateTrade ∉ (confirm_trade_entry (some env)).2 ∧
        RiskCheck.emaDeviation ∉ (confirm_trade_entry (some env)).2) ∧
    (∀ env : RiskEnv, env.canTrade = false →
        confirm_trade_entry_stoic (some env) =
          (false, [RiskCheck.syncState, RiskCheck.circuitBreaker]) ∧
        RiskCheck.evaluateTrade ∉ (confirm_trade_entry_stoic (some env)).2) ∧
    (confirm_trade_entry none).2 = [] ∧
    (confirm_trade_entry_stoic none).2 = [] := by
  refine ⟨?_, ?_, ?_, ?_, rfl, rfl⟩
  · rintro ⟨ct, ea, eb⟩
    cases ct <;> cases ea <;> cases eb <;>
      exact ⟨_, rfl⟩
  · rintro ⟨ct, ea, eb⟩
    cases ct <;> cases ea <;> cases eb <;>
      exact ⟨_, rfl⟩
  · rintro ⟨ct, ea, eb⟩ h
    subst h
    cases ea <;> cases eb <;> simp [confirm_trade_entry]
  · rintro ⟨ct, ea, eb⟩ h
    subst h
    cases ea <;> cases eb <;> simp [confirm_trade_entry_stoic]

/-- C2 (witness): the short-circuit at a concrete environment with the
breaker refusing. -/
theorem claimC2_witness :
    confirm_trade_entry (some ⟨false, true, false⟩) =
      (false, [RiskCheck.syncState, RiskCheck.circuitBreaker]) :=
  (claimC2_thm.2.2.1 ⟨false, true, false⟩ rfl).1

/-! ## C3 — consecutive-loss tripping and win reset -/

/-- If re-evaluating the trip conditions leaves the state CLOSED, then no
condition fired and the state is unchanged. -/
theorem evalTrips_closed (cfg : CBConfig) (now : ℚ) (st : CBState)
    (h : (evalTrips cfg now st).state = CircuitState.CLOSED) :
    evalTrips cfg now st = st ∧ dailyLossHit cfg st = false ∧
      drawdownHit cfg st = false ∧ consecutiveHit cfg st = false := by
  by_cases h1 : dailyLossHit cfg st
  · simp [evalTrips, h1, tripBreaker] at h
  by_cases h2 : drawdownHit cfg st
  · simp [evalTrips, h1, h2, tripBreaker] at h
  by_cases h3 : consecutiveHit cfg st
  · simp [evalTrips, h1, h2, h3, tripBreaker] at h
  · simp [evalTrips, h1, h2, h3]

/-- Applying a trade update keeps the state and the trip reason. -/
theorem applyTradeUpdate_state (st : CBState) (tr : TradeRec) (p : ℚ) :
    (applyTradeUpdate st tr p).state = st.state ∧
      (applyTradeUpdate st tr p).trip_reason = st.trip_reason :=
  ⟨rfl, rfl⟩

/-- A losing trade increments the consecutive-loss counter. -/
theorem applyTradeUpdate_loss (st : CBState) (tr : TradeRec) (p : ℚ) (hp : p < 0) :
    (applyTradeUpdate st tr p).consecutive_losses = st.consecutive_losses + 1 := by
  simp [applyTradeUpdate, hp]

/-- C3: (1) from any CLOSED breaker state with a zeroed loss counter and
`consecutive_loss_limit = 3`, three losing `record_trade` calls — the first
two of which do not cross any other threshold (the state is still CLOSED
after them) and the third of which does not cross the daily-loss or
drawdown thresholds — leave the breaker OPEN with
`trip_reason = CONSECUTIVE_LOSSES`; (2) from any CLOSED state below the
daily-loss and drawdown thresholds (with a meaningful config and
nonnegative balances), a single winning `record_trade` call resets the
consecutive-loss counter to zero and does not trip: the breaker stays
CLOSED with its trip reason unchanged. -/
theorem claimC3_thm :
    (∀ (cfg : CBConfig) (st0 : CBState) (t1 t2 t3 : TradeRec) (p1 p2 p3 n1 n2 n3 : ℚ),
      cfg.consecutive_loss_limit = 3 →
      st0.state = CircuitState.CLOSED →
      st0.consecutive_losses = 0 →
      p1 < 0 → p2 < 0 → p3 < 0 →
      (record_trade cfg st0 t1 p1 n1).state = CircuitState.CLOSED →
      (record_trade cfg (record_trade cfg st0 t1 p1 n1) t2 p2 n2).state =
        CircuitState.CLOSED →
      dailyLossHit cfg (applyTradeUpdate
        (record_trade cfg (record_trade cfg st0 t1 p1 n1) t2 p2 n2) t3 p3) = false →
      drawdownHit cfg (applyTradeUpdate
        (record_trade cfg (record_trade cfg st0 t1 p1 n1) t2 p2 n2) t3 p3) = false →
      (record_trade cfg (record_trade cfg (record_trade cfg st0 t1 p1 n1) t2 p2 n2)
          t3 p3 n3).state = CircuitState.OPEN ∧
      (record_trade cfg (record_trade cfg (record_trade cfg st0 t1 p1 n1) t2 p2 n2)
          t3 p3 n3).trip_reason = TripReason.CONSECUTIVE_LOSSES) ∧
    (∀ (cfg : CBConfig) (st : CBState) (tr : TradeRec) (p n : ℚ),
      st.state = CircuitState.CLOSED → 0 < p → 0 ≤ tr.amount →
      0 ≤ st.peak_balance → 0 < cfg.max_drawdown_pct →
      0 < cfg.consecutive_loss_limit →
      dailyLossHit cfg st = false → drawdownHit cfg st = false →
      (record_trade cfg st tr p n).consecutive_losses = 0 ∧
      (record_trade cfg st tr p n).state = CircuitState.CLOSED ∧
      (record_trade cfg st tr p n).trip_reason = st.trip_reason) := by
  constructor
  · intro cfg st0 t1 t2 t3 p1 p2 p3 n1 n2 n3 hlim hst0 hc0 hp1 hp2 hp3 hs1 hs2 hd3 hw3
    set u1 := applyTradeUpdate st0 t1 p1 with hu1
    have hr1 : record_trade cfg st0 t1 p1 n1 = evalTrips cfg n1 u1 := by
      simp [record_trade, hst0]
    have hu1st : u1.state = CircuitState.CLOSED := by
      rw [hu1, (applyTradeUpdate_state st0 t1 p1).1, hst0]
    have he1 := evalTrips_closed cfg n1 u1 (by rw [← hr1]; exact hs1)
    have hs1eq : record_trade cfg st0 t1 p1 n1 = u1 := by rw [hr1, he1.1]
    have hc1 : u1.consecutive_losses = 1 := by
      rw [hu1, applyTradeUpdate_loss st0 t1 p1 hp1, hc0]
    set u2 := applyTradeUpdate u1 t2 p2 with hu2
    have hr2 : record_trade cfg (record_trade cfg st0 t1 p1 n1) t2 p2 n2 =
        evalTrips cfg n2 u2 := by
      rw [hs1eq]
      simp [record_trade, hu1st]
    have hu2st : u2.state = CircuitState.CLOSED := by
      rw [hu2, (applyTradeUpdate_state u1 t2 p2).1, hu1st]
    have he2 := evalTrips_closed cfg n2 u2 (by rw [← hr2]; exact hs2)
    have hs2eq : record_trade cfg (record_trade cfg st0 t1 p1 n1) t2 p2 n2 = u2 := by
      rw [hr2, he2.1]
    have hc2 : u2.consecutive_losses = 2 := by
      rw [hu2, applyTradeUpdate_loss u1 t2 p2 hp2, hc1]
    set u3 := applyTradeUpdate u2 t3 p3 with hu3
    have hr3 : record_trade cfg (record_trade cfg (record_trade cfg st0 t1 p1 n1)
        t2 p2 n2) t3 p3 n3 = evalTrips cfg n3 u3 := by
      rw [hs2eq]
      simp [record_trade, hu2st]
    have hc3 : u3.consecutive_losses = 3 := by
      rw [hu3, applyTradeUpdate_loss u2 t3 p3 hp3, hc2]
    have hd3' : dailyLossHit cfg u3 = false := by rw [hu3, ← hs2eq]; exact hd3
    have hw3' : drawdownHit cfg u3 = false := by rw [hu3, ← hs2eq]; exact hw3
    have hcons : consecutiveHit cfg u3 = true := by
      simp [consecutiveHit, hc3, hlim]
    rw [hr3]
    simp [evalTrips, hd3', hw3', hcons, tripBreaker]
  · intro cfg st tr p n hst hp ha hpk hdd hcl hd hw
    have hr : record_trade cfg st tr p n =
        evalTrips cfg n (applyTradeUpdate st tr p) := by
      simp [record_trade, hst]
    set u := applyTradeUpdate st tr p with hu
    have hprofit : 0 ≤ tr.amount * p := mul_nonneg ha (le_of_lt hp)
    have hbal : st.current_balance ≤ u.current_balance := by
      rw [hu]
      simp only [applyTradeUpdate]
      linarith
    have hcu : u.consecutive_losses = 0 := by
      rw [hu]
      simp [applyTradeUpdate, not_lt_of_gt hp, hp]
    -- the daily-loss condition stays false: the balance only grew
    have hd' : dailyLossHit cfg u = false := by
      simp only [dailyLossHit, decide_eq_false_iff_not, not_le] at hd ⊢
      have : st.starting_balance = u.starting_balance := rfl
      rw [← this]
      linarith
    -- the drawdown condition stays false
    have hw' : drawdownHit cfg u = false := by
      simp only [drawdownHit, decide_eq_false_iff_not, not_le] at hw ⊢
      have hupk : u.peak_balance = max st.peak_balance u.current_balance := rfl
      by_cases hcase : u.current_balance ≤ st.peak_balance
      · rw [hupk, max_eq_left hcase]
        linarith
      · push_neg at hcase
        rw [hupk, max_eq_right (le_of_lt hcase)]
        have hpos : 0 < u.current_balance := lt_of_le_of_lt hpk hcase
        have := mul_pos hdd hpos
        linarith
    -- the consecutive-loss condition is false: the counter was reset
    have hcons : consecutiveHit cfg u = false := by
      simp only [consecutiveHit, decide_eq_false_iff_not, not_le, hcu]
      exact hcl
    rw [hr]
    simp [evalTrips, hd', hw', hcons]
    exact ⟨hcu, (applyTradeUpdate_state st tr p).1.trans hst,
      (applyTradeUpdate_state st tr p).2⟩

/-- C3 (witness): the chaos test's scenario-2 numbers — a 10000 session,
three trades of amount 100 at −1% — trip the breaker OPEN with
CONSECUTIVE_LOSSES; and one winning +1% trade from a fresh session resets
the counter without tripping. -/
theorem claimC3_witness :
    ((chaosLoss (chaosLoss (chaosLoss (initSession 10000)))).state =
        CircuitState.OPEN ∧
      (chaosLoss (chaosLoss (chaosLoss (initSession 10000)))).trip_reason =
        TripReason.CONSECUTIVE_LOSSES) ∧
    (record_trade chaosCfg (initSession 10000) chaosTrade (1/100) 0).consecutive_losses
        = 0 ∧
      (record_trade chaosCfg (initSession 10000) chaosTrade (1/100) 0).state =
        CircuitState.CLOSED := by
  constructor
  · exact claimC3_thm.1 chaosCfg (initSession 10000) chaosTrade chaosTrade chaosTrade
      (-1/100) (-1/100) (-1/100) 0 0 0 rfl rfl rfl (by norm_num) (by norm_num)
      (by norm_num)
      (by simp only [record_trade, initSession, evalTrips, applyTradeUpdate, chaosCfg,
            chaosTrade, dailyLossHit, drawdownHit, consecutiveHit, tripBreaker]
          norm_num)
      (by simp only [record_trade, initSession, evalTrips, applyTradeUpdate, chaosCfg,
            chaosTrade, dailyLossHit, drawdownHit, consecutiveHit, tripBreaker]
          norm_num)
      (by simp only [record_trade, initSession, evalTrips, applyTradeUpdate, chaosCfg,
            chaosTrade, dailyLossHit, drawdownHit, consecutiveHit, tripBreaker]
          norm_num)
      (by simp only [record_trade, initSession, evalTrips, applyTradeUpdate, chaosCfg,
            chaosTrade, dailyLossHit, drawdownHit, consecutiveHit, tripBreaker]
          norm_num)
  · have h := claimC3_thm.2 chaosCfg (initSession 10000) chaosTrade (1/100) 0
      rfl (by norm_num) (by norm_num [chaosTrade]) (by norm_num [initSession])
      (by norm_num [chaosCfg]) (by norm_num [chaosCfg])
      (by simp only [dailyLossHit, initSession, chaosCfg]
          norm_num)
      (by simp only [drawdownHit, initSession, chaosCfg]
          norm_num)
    exact ⟨h.1, h.2.1⟩

/-! ## C4 — BUY chase: ratchet toward the ceiling, never past it -/

/-- A chase step never exceeds the ceiling. -/
theorem chaseBuyStep_le_ceiling (maxChase offset price bid : ℚ) :
    chaseBuyStep maxChase offset price bid ≤ maxChase :=
  min_le_right _ _

/-- A chase step never retreats while the price respects the ceiling. -/
theorem le_chaseBuyStep (maxChase offset price bid : ℚ) (h : price ≤ maxChase) :
    price ≤ chaseBuyStep maxChase offset price bid :=
  le_min (le_max_right _ _) h

/-- Across any bid sequence the chase prices are non-decreasing and bounded
by the ceiling, provided the starting price respects the ceiling. -/
theorem chaseTrace_mono_bounded (maxChase offset : ℚ) (bids : List ℚ) :
    ∀ p : ℚ, p ≤ maxChase →
      List.Chain' (· ≤ ·) (p :: chaseTrace maxChase offset p bids) ∧
      ∀ q ∈ chaseTrace maxChase offset p bids, q ≤ maxChase := by
  induction bids with
  | nil => intro p _; simp [chaseTrace]
  | cons b bs ih =>
    intro p hp
    have hstep := le_chaseBuyStep maxChase offset p b hp
    have hceil := chaseBuyStep_le_ceiling maxChase offset p b
    have ihr := ih (chaseBuyStep maxChase offset p b) hceil
    refine ⟨?_, ?_⟩
    · simpa [chaseTrace, List.chain'_cons] using ⟨hstep, ihr.1⟩
    · intro q hq
      simp only [chaseTrace, List.mem_cons] at hq
      rcases hq with hq | hq
      · rw [hq]; exact hceil
      · exact ihr.2 q hq

/-- C4: (1) `on_ticker_update` on a BUY order sets the working price to
`min (max (best_bid + chase_offset) price) max_chase_price`; (2) across any
sequence of updates the working price is monotonically non-decreasing and
never exceeds `max_chase_price` (starting at or below the ceiling); (3) the
demo instance — initial price 49500, ceiling 50100, offset 0, bids
[49600, 49800, 50000, 50200] — yields prices [49600, 49800, 50000, 50100];
and the same prices arise through the executor fan-out on the demo order. -/
theorem claimC4_thm :
    (∀ (o : SmartOrder) (tk : Ticker), o.side = OrderSide.BUY →
      (o.on_ticker_update tk).price =
        min (max (tk.best_bid + o.chase_offset) o.price) o.max_chase_price) ∧
    (∀ (maxChase offset p : ℚ) (bids : List ℚ), p ≤ maxChase →
      List.Chain' (· ≤ ·) (p :: chaseTrace maxChase offset p bids) ∧
      ∀ q ∈ chaseTrace maxChase offset p bids, q ≤ maxChase) ∧
    chaseTrace 50100 0 49500 [49600, 49800, 50000, 50200] =
      [49600, 49800, 50000, 50100] ∧
    (alookup 0 (demoTickers.foldl
        (fun s tk => process_ticker_update s tk (fun _ => Fault.ok))
        (submit_order initExec demoOrder).1).store).map SmartOrder.price =
      some 50100 := by
  refine ⟨?_, fun maxChase offset p bids hp =>
    chaseTrace_mono_bounded maxChase offset bids p hp, ?_, ?_⟩
  · intro o tk hside
    simp [SmartOrder.on_ticker_update, hside, chaseBuyStep]
  · simp only [chaseTrace, chaseBuyStep]
    norm_num
  · simp only [demoTickers, demoOrder, List.foldl, submit_order, initExec,
      process_ticker_update, tickerSnapshot, processOne, updateStore, ainsert, alookup,
      SmartOrder.on_ticker_update, SmartOrder.is_active, chaseBuyStep]
    norm_num

/-- C4 (witness): the monotone/bounded part applied at the demo numbers. -/
theorem claimC4_witness :
    List.Chain' (· ≤ ·)
      ((49500 : ℚ) :: chaseTrace 50100 0 49500 [49600, 49800, 50000, 50200]) ∧
    ∀ q ∈ chaseTrace 50100 0 49500 [49600, 49800, 50000, 50200], q ≤ (50100 : ℚ) :=
  claimC4_thm.2.1 50100 0 49500 [49600, 49800, 50000, 50200] (by norm_num)

/-! ## Executor lemmas -/

theorem alookup_updateStore (r x : ℕ) (f : SmartOrder → SmartOrder)
    (l : List (ℕ × SmartOrder)) :
    alookup x (updateStore r f l) =
      if x = r then (alookup x l).map f else alookup x l := by
  induction l with
  | nil => by_cases h : x = r <;> simp [updateStore, alookup, h]
  | cons hd tl ih =>
    simp only [updateStore] at ih ⊢
    simp only [List.map_cons]
    by_cases h1 : hd.1 = r
    · rw [if_pos h1]
      by_cases h2 : hd.1 = x
      · have h3 : x = r := h2.symm.trans h1
        simp [alookup, h2, h3]
      · simp [alookup, h2, ih]
    · rw [if_neg h1]
      by_cases h2 : hd.1 = x
      · have h3 : ¬x = r := fun hc => h1 (h2.trans hc)
        simp [alookup, h2, h3]
      · simp [alookup, h2, ih]

theorem findTask_tid (tid : ℕ) (ts : List TaskCtl) (t : TaskCtl)
    (h : findTask tid ts = some t) : t.tid = tid := by
  have := List.find?_some h
  simpa using this

theorem alookup_mem_values {α β : Type} [DecidableEq α] (k : α) (v : β)
    (l : List (α × β)) (h : alookup k l = some v) : v ∈ l.map Prod.snd := by
  induction l with
  | nil => simp [alookup] at h
  | cons hd tl ih =>
    by_cases hh : hd.1 = k
    · simp only [alookup, hh, if_true, Option.some.injEq] at h
      simp [← h]
    · simp only [alookup, hh, if_false] at h
      simp [ih h]

theorem on_ticker_update_status (o : SmartOrder) (tk : Ticker) :
    (o.on_ticker_update tk).status = o.status := by
  cases h : o.side <;> simp [SmartOrder.on_ticker_update, h]

theorem processOne_fields (s : ExecState) (tk : Ticker) (faults : ℕ → Fault)
    (r : ℕ) :
    (processOne s tk faults r).active_orders = s.active_orders ∧
    (processOne s tk faults r).order_tasks = s.order_tasks ∧
    (processOne s tk faults r).tasks = s.tasks := by
  cases hf : faults r <;> simp [processOne, hf]

theorem processOne_store_ne (s : ExecState) (tk : Ticker) (faults : ℕ → Fault)
    (r x : ℕ) (h : x ≠ r) :
    alookup x (processOne s tk faults r).store = alookup x s.store := by
  cases hf : faults r <;> simp [processOne, hf, alookup_updateStore, h]

theorem processOne_store_self (s : ExecState) (tk : Ticker) (faults : ℕ → Fault)
    (r : ℕ) :
    alookup r (processOne s tk faults r).store =
      (alookup r s.store).map
        (fun o => if faults r = Fault.inUpdate then o else o.on_ticker_update tk) := by
  cases hf : faults r <;>
    cases ho : alookup r s.store <;>
      simp [processOne, hf, alookup_updateStore, ho]

theorem foldl_processOne_fields (tk : Ticker) (faults : ℕ → Fault) (L : List ℕ) :
    ∀ s : ExecState,
      ((L.foldl (fun st r => processOne st tk faults r) s).active_orders =
          s.active_orders ∧
        (L.foldl (fun st r => processOne st tk faults r) s).order_tasks =
          s.order_tasks ∧
        (L.foldl (fun st r => processOne st tk faults r) s).tasks = s.tasks) := by
  induction L with
  | nil => intro s; exact ⟨rfl, rfl, rfl⟩
  | cons a L ih =>
    intro s
    have hp := processOne_fields s tk faults a
    have hr := ih (processOne s tk faults a)
    simp only [List.foldl_cons]
    exact ⟨hr.1.trans hp.1, hr.2.1.trans hp.2.1, hr.2.2.trans hp.2.2⟩

theorem foldl_processOne_notmem (tk : Ticker) (faults : ℕ → Fault) (L : List ℕ) :
    ∀ (s : ExecState) (x : ℕ), x ∉ L →
      alookup x ((L.foldl (fun st r => processOne st tk faults r) s)).store =
        alookup x s.store := by
  induction L with
  | nil => intro s x _; rfl
  | cons a L ih =>
    intro s x hx
    simp only [List.mem_cons, not_or] at hx
    simp only [List.foldl_cons]
    rw [ih (processOne s tk faults a) x hx.2]
    exact processOne_store_ne s tk faults a x hx.1

theorem foldl_processOne_mem (tk : Ticker) (faults : ℕ → Fault) (L : List ℕ) :
    ∀ (s : ExecState) (x : ℕ), L.Nodup → x ∈ L →
      alookup x ((L.foldl (fun st r => processOne st tk faults r) s)).store =
        (alookup x s.store).map
          (fun o => if faults x = Fault.inUpdate then o else o.on_ticker_update tk) := by
  induction L with
  | nil => intro s x _ hx; simp at hx
  | cons a L ih =>
    intro s x hnd hx
    simp only [List.nodup_cons] at hnd
    simp only [List.foldl_cons]
    rcases List.mem_cons.mp hx with hxa | hxL
    · subst hxa
      rw [foldl_processOne_notmem tk faults L (processOne s tk faults x) x hnd.1]
      exact processOne_store_self s tk faults x
    · have hne : x ≠ a := fun hc => hnd.1 (hc ▸ hxL)
      rw [ih (processOne s tk faults a) x hnd.2 hxL,
        processOne_store_ne s tk faults a x hne]

theorem foldl_processOne_status (tk : Ticker) (faults : ℕ → Fault) (L : List ℕ) :
    ∀ (s : ExecState) (x : ℕ),
      (alookup x ((L.foldl (fun st r => processOne st tk faults r) s)).store).map
          SmartOrder.status =
        (alookup x s.store).map SmartOrder.status := by
  induction L with
  | nil => intro s x; rfl
  | cons a L ih =>
    intro s x
    simp only [List.foldl_cons]
    rw [ih (processOne s tk faults a) x]
    by_cases h : x = a
    · subst h
      rw [processOne_store_self s tk faults x]
      cases ho : alookup x s.store with
      | none => rfl
      | some o =>
        by_cases hf : faults x = Fault.inUpdate <;>
          simp [hf, on_ticker_update_status]
    · rw [processOne_store_ne s tk faults a x h]

/-- The guaranteed-cleanup `finally` block: after it, the task's `order_id`
is bound in neither map, and every task with its id is marked done. -/
theorem cleanupTask_spec (s : ExecState) (t : TaskCtl)
    (hnda : NodupKeys s.active_orders) (hndt : NodupKeys s.order_tasks) :
    alookup t.order_id (cleanupTask s t).active_orders = none ∧
    alookup t.order_id (cleanupTask s t).order_tasks = none ∧
    ∀ u ∈ (cleanupTask s t).tasks, u.tid = t.tid → u.done = true := by
  refine ⟨alookup_aerase_self _ _ hnda, alookup_aerase_self _ _ hndt, ?_⟩
  intro u hu htid
  simp only [cleanupTask] at hu
  rcases List.mem_map.mp hu with ⟨u0, _, rfl⟩
  by_cases h : u0.tid = t.tid
  · simp [h]
  · rw [if_neg h] at htid ⊢
    exact absurd htid h

/-! ## C7 — failed tasks record the error; every exit unregisters -/

/-- C7: for a live lifecycle task, (1) on every termination path of one
scheduling — pending cancellation, an injected exception, a vanished or
inactive order, or a timeout — the task's `order_id` is afterwards bound in
neither the order map nor the task map, and the task is marked done;
(2) if the body raised exception `e` (with no cancellation pending), the
managed order's status is FAILED and its recorded error is `e`. -/
theorem claimC7_thm :
    ∀ (s : ExecState) (tid : ℕ) (timedOut : Bool) (fault : Option String)
      (t : TaskCtl),
      findTask tid s.tasks = some t → t.done = false →
      NodupKeys s.active_orders → NodupKeys s.order_tasks →
      (stepTerminates s t timedOut fault = true →
        alookup t.order_id (taskStep s tid timedOut fault).active_orders = none ∧
        alookup t.order_id (taskStep s tid timedOut fault).order_tasks = none ∧
        ∀ u ∈ (taskStep s tid timedOut fault).tasks, u.tid = tid → u.done = true) ∧
      (∀ e : String, fault = some e → t.cancel_requested = false →
        (alookup t.orderRef (taskStep s tid timedOut fault).store).map
            (fun o => (o.status, o.error)) =
          (alookup t.orderRef s.store).map
            (fun _ => (OrderStatus.FAILED, some e))) := by
  intro s tid timedOut fault t ht hdone hnda hndt
  have htid := findTask_tid tid s.tasks t ht
  by_cases hcr : t.cancel_requested
  · -- pending cancellation: the CancelledError path, cleanup only
    have hstep : taskStep s tid timedOut fault = cleanupTask s t := by
      simp [taskStep, ht, hdone, hcr]
    constructor
    · intro _
      rw [hstep, ← htid]
      exact cleanupTask_spec s t hnda hndt
    · intro e _ hfr
      rw [hfr] at hcr
      simp at hcr
  · cases fault with
    | some e =>
      -- the except-Exception path: mark FAILED, then cleanup
      have hstep : taskStep s tid timedOut (some e) =
          cleanupTask { s with store := (updateStore t.orderRef (fun o =>
            o.update_status OrderStatus.FAILED (some e)) s.store) } t := by
        simp [taskStep, ht, hdone, hcr]
      constructor
      · intro _
        rw [hstep, ← htid]
        exact cleanupTask_spec _ t hnda hndt
      · intro e' he _
        cases he
        rw [hstep]
        show (alookup t.orderRef (updateStore t.orderRef
            (fun o => o.update_status OrderStatus.FAILED (some e)) s.store)).map
            (fun o => (o.status, o.error)) = _
        rw [alookup_updateStore, if_pos rfl]
        cases alookup t.orderRef s.store with
        | none => rfl
        | some o => simp [SmartOrder.update_status, Option.orElse]
    | none =>
      refine ⟨?_, fun e he => by cases he⟩
      intro hterm
      cases halo : alookup t.orderRef s.store with
      | none =>
        have hstep : taskStep s tid timedOut none = cleanupTask s t := by
          simp [taskStep, ht, hdone, hcr, halo]
        rw [hstep, ← htid]
        exact cleanupTask_spec s t hnda hndt
      | some o =>
        by_cases hlive : o.is_active
        · cases timedOut with
          | true =>
            have hstep : taskStep s tid true none = cleanupTask s t := by
              simp [taskStep, ht, hdone, hcr, halo, hlive]
            rw [hstep, ← htid]
            exact cleanupTask_spec s t hnda hndt
          | false =>
            exfalso
            simp [stepTerminates, hcr, halo, hlive] at hterm
        · have hstep : taskStep s tid timedOut none = cleanupTask s t := by
            simp [taskStep, ht, hdone, hcr, halo, hlive]
          rw [hstep, ← htid]
          exact cleanupTask_spec s t hnda hndt

/-- C7 (witness): one order submitted, its task hit by exception "boom":
both maps lose the id, the task is done, and the order records
FAILED/"boom". -/
theorem claimC7_witness :
    (alookup "A" (taskStep (submit_order initExec demoOrder).1 0 false
        (some "boom")).active_orders = none ∧
      alookup "A" (taskStep (submit_order initExec demoOrder).1 0 false
        (some "boom")).order_tasks = none ∧
      ∀ u ∈ (taskStep (submit_order initExec demoOrder).1 0 false
        (some "boom")).tasks, u.tid = 0 → u.done = true) ∧
    (alookup 0 (taskStep (submit_order initExec demoOrder).1 0 false
        (some "boom")).store).map (fun o => (o.status, o.error)) =
      (alookup 0 (submit_order initExec demoOrder).1.store).map
        (fun _ => (OrderStatus.FAILED, some "boom")) := by
  have h := claimC7_thm (submit_order initExec demoOrder).1 0 false (some "boom")
    ⟨0, 0, "A", false, false⟩ (by decide) (by decide)
    (by simp [NodupKeys, submit_order, initExec, ainsert])
    (by simp [NodupKeys, submit_order, initExec, ainsert])
  exact ⟨h.1 (by decide), h.2 "boom" rfl rfl⟩

/-! ## C10 — `get_order_status` is `None` once a lifecycle has ended -/

/-- C10: (1) a non-`None` result of `get_order_status` is only observable
for a currently registered order; (2) after any terminating scheduling of a
live lifecycle task, `get_order_status` of its `order_id` is `None`;
(3) after `cancel_order(id)` — one way a lifecycle ends — `get_order_status
id` is `None`. -/
theorem claimC10_thm :
    (∀ (s : ExecState) (id : String) (st : OrderStatus),
      get_order_status s id = some st → ∃ r, alookup id s.active_orders = some r) ∧
    (∀ (s : ExecState) (tid : ℕ) (timedOut : Bool) (fault : Option String)
      (t : TaskCtl),
      findTask tid s.tasks = some t → t.done = false →
      NodupKeys s.active_orders → NodupKeys s.order_tasks →
      stepTerminates s t timedOut fault = true →
      get_order_status (taskStep s tid timedOut fault) t.order_id = none) ∧
    (∀ (s : ExecState) (id : String), NodupKeys s.active_orders →
      get_order_status (cancel_order s id) id = none) := by
  refine ⟨?_, ?_, ?_⟩
  · intro s id st h
    cases hl : alookup id s.active_orders with
    | none => simp [get_order_status, hl] at h
    | some r => exact ⟨r, rfl⟩
  · intro s tid timedOut fault t ht hdone hnda hndt hterm
    -- on every termination path the step is a cleanup of some state with
    -- the same order map, so the id is gone from the order map
    have htid := findTask_tid tid s.tasks t ht
    have hgone : alookup t.order_id (taskStep s tid timedOut fault).active_orders
        = none := by
      by_cases hcr : t.cancel_requested
      · have hstep : taskStep s tid timedOut fault = cleanupTask s t := by
          simp [taskStep, ht, hdone, hcr]
        rw [hstep]
        exact alookup_aerase_self _ _ hnda
      · cases fault with
        | some e =>
          have hstep : taskStep s tid timedOut (some e) =
              cleanupTask { s with store := (updateStore t.orderRef (fun o =>
                o.update_status OrderStatus.FAILED (some e)) s.store) } t := by
            simp [taskStep, ht, hdone, hcr]
          rw [hstep]
          exact alookup_aerase_self _ _ hnda
        | none =>
          cases halo : alookup t.orderRef s.store with
          | none =>
            have hstep : taskStep s tid timedOut none = cleanupTask s t := by
              simp [taskStep, ht, hdone, hcr, halo]
            rw [hstep]
            exact alookup_aerase_self _ _ hnda
          | some o =>
            by_cases hlive : o.is_active
            · cases timedOut with
              | true =>
                have hstep : taskStep s tid true none = cleanupTask s t := by
                  simp [taskStep, ht, hdone, hcr, halo, hlive]
                rw [hstep]
                exact alookup_aerase_self _ _ hnda
              | false =>
                exfalso
                simp [stepTerminates, hcr, halo, hlive] at hterm
            · have hstep : taskStep s tid timedOut none = cleanupTask s t := by
                simp [taskStep, ht, hdone, hcr, halo, hlive]
              rw [hstep]
              exact alookup_aerase_self _ _ hnda
    simp [get_order_status, hgone]
  · intro s id hnda
    cases hl : alookup id s.active_orders with
    | none =>
      simp [cancel_order, hl, get_order_status]
    | some r =>
      have hgone : alookup id (cancel_order s id).active_orders = none := by
        simp only [cancel_order, hl]
        cases alookup id s.order_tasks <;>
          exact alookup_aerase_self _ _ hnda
      simp [get_order_status, hgone]

/-- C10 (witness): submit then cancel — `get_order_status` returns `None`;
and a registered order does witness conjunct (1). -/
theorem claimC10_witness :
    get_order_status (cancel_order (submit_order initExec demoOrder).1 "A") "A" =
      none ∧
    ∃ r, alookup "A" (submit_order initExec demoOrder).1.active_orders = some r := by
  constructor
  · exact claimC10_thm.2.2 (submit_order initExec demoOrder).1 "A"
      (by simp [NodupKeys, submit_order, initExec, ainsert])
  · exact claimC10_thm.1 (submit_order initExec demoOrder).1 "A"
      OrderStatus.SUBMITTED (by decide)

/-! ## C9 — `cancel_order` is idempotent -/

/-- Cancelling an unregistered id leaves the executor unchanged. -/
theorem cancel_order_not_registered (s : ExecState) (id : String)
    (h : alookup id s.active_orders = none) : cancel_order s id = s := by
  simp [cancel_order, h]

/-- C9: cancelling an order id that is not registered (never submitted, or
already terminal and cleaned up) is a no-op raising no error, and cancelling
the same id twice equals cancelling it once. -/
theorem claimC9_thm :
    (∀ (s : ExecState) (id : String), alookup id s.active_orders = none →
      cancel_order s id = s) ∧
    (∀ (s : ExecState) (id : String), NodupKeys s.active_orders →
      cancel_order (cancel_order s id) id = cancel_order s id) := by
  refine ⟨cancel_order_not_registered, ?_⟩
  intro s id hnda
  cases hl : alookup id s.active_orders with
  | none =>
    rw [cancel_order_not_registered s id hl]
    exact cancel_order_not_registered s id hl
  | some r =>
    have hgone : alookup id (cancel_order s id).active_orders = none := by
      simp only [cancel_order, hl]
      cases alookup id s.order_tasks <;>
        exact alookup_aerase_self _ _ hnda
    exact cancel_order_not_registered _ id hgone

/-- C9 (witness): a submitted order cancelled twice equals cancelled once,
and cancelling on the fresh executor is a no-op. -/
theorem claimC9_witness :
    cancel_order (cancel_order (submit_order initExec demoOrder).1 "A") "A" =
      cancel_order (submit_order initExec demoOrder).1 "A" ∧
    cancel_order initExec "A" = initExec :=
  ⟨claimC9_thm.2 (submit_order initExec demoOrder).1 "A"
      (by simp [NodupKeys, submit_order, initExec, ainsert]),
    claimC9_thm.1 initExec "A" rfl⟩

/-! ## C8 — ticker fan-out: per-order fault isolation -/

/-- A second demo order with its own id, same symbol. -/
def demoOrderB : SmartOrder := { demoOrder with order_id := "B" }

/-- C8: during one ticker fan-out over the snapshot, (1) each snapshotted
order's resulting stored state is a function of its own fault alone —
unchanged if its own update raised, chased otherwise — independent of every
other order's fault, so a fault in one order does not prevent or alter the
update of the others; (2) orders outside the snapshot are untouched;
(3) no order's status is changed by fan-out; (4) the order map, the task
map and the tasks are untouched. -/
theorem claimC8_thm :
    (∀ (s : ExecState) (tk : Ticker) (faults : ℕ → Fault) (r : ℕ),
      (tickerSnapshot s tk.symbol).Nodup → r ∈ tickerSnapshot s tk.symbol →
      alookup r (process_ticker_update s tk faults).store =
        (alookup r s.store).map
          (fun o => if faults r = Fault.inUpdate then o else o.on_ticker_update tk)) ∧
    (∀ (s : ExecState) (tk : Ticker) (faults : ℕ → Fault) (x : ℕ),
      x ∉ tickerSnapshot s tk.symbol →
      alookup x (process_ticker_update s tk faults).store = alookup x s.store) ∧
    (∀ (s : ExecState) (tk : Ticker) (faults : ℕ → Fault) (x : ℕ),
      (alookup x (process_ticker_update s tk faults).store).map SmartOrder.status =
        (alookup x s.store).map SmartOrder.status) ∧
    (∀ (s : ExecState) (tk : Ticker) (faults : ℕ → Fault),
      (process_ticker_update s tk faults).active_orders = s.active_orders ∧
      (process_ticker_update s tk faults).order_tasks = s.order_tasks ∧
      (process_ticker_update s tk faults).tasks = s.tasks) :=
  ⟨fun s tk faults r hnd hr =>
      foldl_processOne_mem tk faults (tickerSnapshot s tk.symbol) s r hnd hr,
    fun s tk faults x hx =>
      foldl_processOne_notmem tk faults (tickerSnapshot s tk.symbol) s x hx,
    fun s tk faults x =>
      foldl_processOne_status tk faults (tickerSnapshot s tk.symbol) s x,
    fun s tk faults =>
      foldl_processOne_fields tk faults (tickerSnapshot s tk.symbol) s⟩

/-- C8 (witness): two live orders for the same symbol; order A's update
raises while order B's succeeds — B's stored order is chased exactly as its
own fault dictates. -/
theorem claimC8_witness :
    alookup 1 (process_ticker_update
        (submit_order (submit_order initExec demoOrder).1 demoOrderB).1
        { symbol := "BTC/USDT", best_bid := 49600, best_ask := 49700,
          spread_pct := 0 }
        (fun r => if r = 0 then Fault.inUpdate else Fault.ok)).store =
      (alookup 1 (submit_order (submit_order initExec demoOrder).1
          demoOrderB).1.store).map
        (fun o => if (fun r => if r = 0 then Fault.inUpdate else Fault.ok) 1 =
            Fault.inUpdate then o
          else o.on_ticker_update
            { symbol := "BTC/USDT", best_bid := 49600, best_ask := 49700,
              spread_pct := 0 }) :=
  claimC8_thm.1 (submit_order (submit_order initExec demoOrder).1 demoOrderB).1
    { symbol := "BTC/USDT", best_bid := 49600, best_ask := 49700, spread_pct := 0 }
    (fun r => if r = 0 then Fault.inUpdate else Fault.ok) 1
    (by decide) (by decide)

/-! ## C5 — `stop()` clears state but does not await the tasks -/

/-- After the `finally` cleanup every task with the finished task's id is
marked done. -/
theorem cleanupTask_done (s : ExecState) (t : TaskCtl) :
    ∀ u ∈ (cleanupTask s t).tasks, u.tid = t.tid → u.done = true := by
  intro u hu htid
  simp only [cleanupTask] at hu
  rcases List.mem_map.mp hu with ⟨u0, _, rfl⟩
  by_cases h : u0.tid = t.tid
  · simp [h]
  · rw [if_neg h] at htid ⊢
    exact absurd htid h

/-- C5 (counterexample): the claim "after stop() ... no lifecycle task is
still live" is false at the concrete input of one submitted order: after
`stop()` the lifecycle task of order "A" has cancellation requested but is
not done — `Task.cancel()` is not awaited, so the task is still live when
`stop()` returns. -/
theorem claimC5_cex :
    ((stopExec (submit_order initExec demoOrder).1).tasks.filter
        (fun t => !t.done)) = [⟨0, 0, "A", true, false⟩] := by
  decide

/-- C5 (amended): after `stop()` the order map and the task map are empty
for any prior state; every task that was registered in the task map has
cancellation requested; and a cancellation-requested live task finishes
(is marked done) at its next scheduling.  `stop()` does not await the
cancelled tasks, so they may still be live at the instant it returns. -/
theorem claimC5_thm :
    (∀ s : ExecState, (stopExec s).active_orders = [] ∧
      (stopExec s).order_tasks = []) ∧
    (∀ (s : ExecState) (id : String) (tid : ℕ),
      alookup id s.order_tasks = some tid →
      ∀ u ∈ (stopExec s).tasks, u.tid = tid → u.cancel_requested = true) ∧
    (∀ (s : ExecState) (tid : ℕ) (timedOut : Bool) (fault : Option String)
      (t : TaskCtl), findTask tid s.tasks = some t → t.done = false →
      t.cancel_requested = true →
      ∀ u ∈ (taskStep s tid timedOut fault).tasks, u.tid = tid → u.done = true) := by
  refine ⟨fun s => ⟨rfl, rfl⟩, ?_, ?_⟩
  · intro s id tid h u hu hut
    have hmem : tid ∈ s.order_tasks.map Prod.snd :=
      alookup_mem_values id tid s.order_tasks h
    simp only [stopExec] at hu
    rcases List.mem_map.mp hu with ⟨u0, _, rfl⟩
    by_cases hc : (s.order_tasks.map Prod.snd).contains u0.tid = true
    · rw [if_pos hc]
    · rw [if_neg hc] at hut ⊢
      rw [hut] at hc
      exact absurd (by simpa using hmem) hc
  · intro s tid timedOut fault t ht hdone hcr u hu hut
    have htid := findTask_tid tid s.tasks t ht
    have hstep : taskStep s tid timedOut fault = cleanupTask s t := by
      simp [taskStep, ht, hdone, hcr]
    rw [hstep] at hu
    exact cleanupTask_done s t u hu (hut.trans htid.symm)

/-- C5 (witness): the map-clearing and cancellation-request parts at the
one-order state, and the cancelled task completing on its next scheduling. -/
theorem claimC5_witness :
    ((stopExec (submit_order initExec demoOrder).1).active_orders = [] ∧
      (stopExec (submit_order initExec demoOrder).1).order_tasks = []) ∧
    (∀ u ∈ (stopExec (submit_order initExec demoOrder).1).tasks,
      u.tid = 0 → u.cancel_requested = true) ∧
    (∀ u ∈ (taskStep (stopExec (submit_order initExec demoOrder).1) 0 false
        none).tasks, u.tid = 0 → u.done = true) :=
  ⟨claimC5_thm.1 (stopExec (submit_order initExec demoOrder).1),
    claimC5_thm.2.1 (submit_order initExec demoOrder).1 "A" 0 (by decide),
    claimC5_thm.2.2 (stopExec (submit_order initExec demoOrder).1) 0 false none
      ⟨0, 0, "A", true, false⟩ (by decide) (by decide) (by decide)⟩

/-! ## C6 — task-per-order uniqueness -/

/-- The `dict` representation invariant of the two executor maps. -/
def ExecInv (s : ExecState) : Prop :=
  NodupKeys s.active_orders ∧ NodupKeys s.order_tasks

/-- Every executor operation preserves the map invariant. -/
theorem applyOp_inv (s : ExecState) (op : ExecOp) (h : ExecInv s) :
    ExecInv (applyOp s op) := by
  cases op with
  | submit o =>
    exact ⟨nodupKeys_ainsert _ _ _ h.1, nodupKeys_ainsert _ _ _ h.2⟩
  | cancel id =>
    show ExecInv (cancel_order s id)
    cases hl : alookup id s.active_orders with
    | none => simpa [cancel_order, hl] using h
    | some r =>
      cases hlt : alookup id s.order_tasks with
      | none =>
        simp only [cancel_order, hl, hlt]
        exact ⟨nodupKeys_aerase _ _ h.1, h.2⟩
      | some tid =>
        simp only [cancel_order, hl, hlt]
        exact ⟨nodupKeys_aerase _ _ h.1, nodupKeys_aerase _ _ h.2⟩
  | startOp => exact h
  | stopOp => exact ⟨nodupKeys_nil, nodupKeys_nil⟩
  | step tid timedOut fault =>
    show ExecInv (taskStep s tid timedOut fault)
    cases hft : findTask tid s.tasks with
    | none => simpa [taskStep, hft] using h
    | some t =>
      by_cases hdone : t.done
      · simpa [taskStep, hft, hdone] using h
      · by_cases hcr : t.cancel_requested
        · have hstep : taskStep s tid timedOut fault = cleanupTask s t := by
            simp [taskStep, hft, hdone, hcr]
          rw [hstep]
          exact ⟨nodupKeys_aerase _ _ h.1, nodupKeys_aerase _ _ h.2⟩
        · cases fault with
          | some e =>
            have hstep : taskStep s tid timedOut (some e) =
                cleanupTask { s with store := (updateStore t.orderRef (fun o =>
                  o.update_status OrderStatus.FAILED (some e)) s.store) } t := by
              simp [taskStep, hft, hdone, hcr]
            rw [hstep]
            exact ⟨nodupKeys_aerase _ _ h.1, nodupKeys_aerase _ _ h.2⟩
          | none =>
            cases halo : alookup t.orderRef s.store with
            | none =>
              have hstep : taskStep s tid timedOut none = cleanupTask s t := by
                simp [taskStep, hft, hdone, hcr, halo]
              rw [hstep]
              exact ⟨nodupKeys_aerase _ _ h.1, nodupKeys_aerase _ _ h.2⟩
            | some o =>
              by_cases hlive : o.is_active
              · cases timedOut with
                | true =>
                  have hstep : taskStep s tid true none = cleanupTask s t := by
                    simp [taskStep, hft, hdone, hcr, halo, hlive]
                  rw [hstep]
                  exact ⟨nodupKeys_aerase _ _ h.1, nodupKeys_aerase _ _ h.2⟩
                | false =>
                  have hstep : taskStep s tid false none = s := by
                    simp [taskStep, hft, hdone, hcr, halo, hlive]
                  rw [hstep]
                  exact h
              · have hstep : taskStep s tid timedOut none = cleanupTask s t := by
                  simp [taskStep, hft, hdone, hcr, halo, hlive]
                rw [hstep]
                exact ⟨nodupKeys_aerase _ _ h.1, nodupKeys_aerase _ _ h.2⟩
  | tick tk faults =>
    show ExecInv (process_ticker_update s tk faults)
    have hf := foldl_processOne_fields tk faults (tickerSnapshot s tk.symbol) s
    exact ⟨hf.1 ▸ h.1, hf.2.1 ▸ h.2⟩

/-- The invariant holds along any run from the fresh executor. -/
theorem runOps_inv (ops : List ExecOp) :
    ∀ s : ExecState, ExecInv s → ExecInv (runOps s ops) := by
  induction ops with
  | nil => intro s h; exact h
  | cons op ops ih =>
    intro s h
    exact ih (applyOp s op) (applyOp_inv s op h)

/-- C6 (counterexample): the claim "at most one lifecycle task for that
order_id exists at any time" is false at the concrete input of submitting
the demo order twice: afterwards two distinct live (not done) lifecycle
tasks exist for order_id "A" — `submit_order` overwrites the map entries
without cancelling the previous task. -/
theorem claimC6_cex :
    ((submit_order (submit_order initExec demoOrder).1 demoOrder).1.tasks.filter
        (fun t => t.order_id == "A" && !t.done)) =
      [⟨0, 0, "A", false, false⟩, ⟨1, 1, "A", false, false⟩] := by
  decide

/-- C6 (amended): along every operation sequence from a fresh executor, the
order map and the task map each bind an order_id at most once (at most one
registered lifecycle task per order_id); but `submit_order` never removes or
cancels an existing task — the previously registered task object survives
any later submit — so a resubmitted order_id can leave a second live task. -/
theorem claimC6_thm :
    (∀ ops : List ExecOp, NodupKeys (runOps initExec ops).active_orders ∧
      NodupKeys (runOps initExec ops).order_tasks) ∧
    (∀ (s : ExecState) (o : SmartOrder) (t : TaskCtl),
      t ∈ s.tasks → t ∈ (submit_order s o).1.tasks) := by
  constructor
  · intro ops
    exact runOps_inv ops initExec ⟨nodupKeys_nil, nodupKeys_nil⟩
  · intro s o t ht
    simp only [submit_order]
    exact List.mem_append_left _ ht

/-- C6 (witness): the amended uniqueness of map entries after the double
submit, and the survival of the first task across the second submit. -/
theorem claimC6_witness :
    (NodupKeys (runOps initExec
        [ExecOp.submit demoOrder, ExecOp.submit demoOrder]).active_orders ∧
      NodupKeys (runOps initExec
        [ExecOp.submit demoOrder, ExecOp.submit demoOrder]).order_tasks) ∧
    (⟨0, 0, "A", false, false⟩ : TaskCtl) ∈
      (submit_order (submit_order initExec demoOrder).1 demoOrder).1.tasks :=
  ⟨claimC6_thm.1 [ExecOp.submit demoOrder, ExecOp.submit demoOrder],
    claimC6_thm.2 (submit_order initExec demoOrder).1 demoOrder
      ⟨0, 0, "A", false, false⟩ (by decide)⟩
